import Mathlib

/-!
# Verification of the clonevault matchmaking and conversation core

A shallow embedding of the platform's data model (from the PostgreSQL schema in
the repository) and of the orchestration operations specified in the design
document.  The concrete backend implementation of the orchestration operations
(`discover`, `respond`, `appendTurn`, the job worker loop) is not part of the
reviewed sources — the schema, the frontend integration guide (which contains
the real `ChatWebSocket` client class) and UI code are — so those operations
are modelled from the spec, as marked in their doc comments.  The schema and
the `ChatWebSocket` class are embedded directly from the source.
-/

namespace Clonevault

/-! ## Match data model, from the `matches` table of the database schema -/

/-- A per-side recorded response on a match; the `user1_response` /
`user2_response` columns, `CHECK (... IN ('accept', 'reject'))`. -/
inductive Response where
  | accept
  | reject
deriving DecidableEq, Repr

/-- Match lifecycle status; the `status` column,
`CHECK (status IN ('pending', 'accepted', 'rejected', 'expired'))`. -/
inductive MatchStatus where
  | pending
  | accepted
  | rejected
  | expired
deriving DecidableEq, Repr

/-- One row of the `matches` table.  UUID keys are modelled as naturals,
`similarity_score DECIMAL(3,2)` as a rational, timestamps as naturals. -/
structure MatchRow where
  id : Nat
  user1_id : Nat
  user2_id : Nat
  agent1_id : Nat
  agent2_id : Nat
  match_reason : Option String
  similarity_score : ℚ
  status : MatchStatus
  user1_response : Option Response
  user2_response : Option Response
  expires_at : Nat
  created_at : Nat
  responded_at : Option Nat
deriving DecidableEq, Repr

/-- The row constraint `CHECK (user1_id < user2_id)` of the `matches` table. -/
def MatchRow.check (m : MatchRow) : Prop := m.user1_id < m.user2_id

instance : DecidablePred MatchRow.check := fun m => Nat.decLt m.user1_id m.user2_id

/-- The table constraint `UNIQUE(user1_id, user2_id)` of the `matches` table:
no two distinct rows share the ordered pair of user columns. -/
def orderedUnique (st : List MatchRow) : Prop :=
  st.Pairwise fun a b => (a.user1_id, a.user2_id) ≠ (b.user1_id, b.user2_id)

/-- Two match rows pair the same two users, regardless of slot order. -/
def samePair (a b : MatchRow) : Prop :=
  (a.user1_id = b.user1_id ∧ a.user2_id = b.user2_id) ∨
  (a.user1_id = b.user2_id ∧ a.user2_id = b.user1_id)

instance : ∀ a b, Decidable (samePair a b) := fun _ _ => instDecidableOr

/-- At most one Match row per unordered user pair. -/
def pairUnique (st : List MatchRow) : Prop :=
  st.Pairwise fun a b => ¬ samePair a b

/-- At most one non-expired Match row per unordered user pair. -/
def nonExpiredPairUnique (st : List MatchRow) : Prop :=
  st.Pairwise fun a b =>
    a.status ≠ MatchStatus.expired → b.status ≠ MatchStatus.expired → ¬ samePair a b

/-- All rows of a table satisfy the `CHECK (user1_id < user2_id)` constraint. -/
def allChecked (st : List MatchRow) : Prop := ∀ m ∈ st, m.check

instance (st : List MatchRow) : Decidable (allChecked st) :=
  List.decidableBAll MatchRow.check st

instance (st : List MatchRow) : Decidable (orderedUnique st) := by
  unfold orderedUnique
  infer_instance

instance (st : List MatchRow) : Decidable (pairUnique st) := by
  unfold pairUnique
  infer_instance

instance (st : List MatchRow) : Decidable (nonExpiredPairUnique st) := by
  unfold nonExpiredPairUnique
  infer_instance

/-! ## Match Engine operations

The Match Engine implementation is absent from the reviewed sources; the
operations below are modelled from the spec's §4.1 over the schema's rows. -/

/-- Canonical low slot of an unordered user pair (the schema's
`CHECK (user1_id < user2_id)` fixes slot order). -/
def pairLo (a b : Nat) : Nat := min a b

/-- Canonical high slot of an unordered user pair. -/
def pairHi (a b : Nat) : Nat := max a b

/-- Whether the table already holds a Match (of any status) for the unordered
pair of users `a` and `b`. -/
def hasMatchForPair (a b : Nat) (st : List MatchRow) : Bool :=
  st.any fun m => m.user1_id == pairLo a b && m.user2_id == pairHi a b

/-- Whether the table holds a non-expired Match for the unordered pair. -/
def hasLiveMatchForPair (a b : Nat) (st : List MatchRow) : Bool :=
  st.any fun m =>
    m.user1_id == pairLo a b && m.user2_id == pairHi a b &&
      !(m.status == MatchStatus.expired)

/-- The schema's `expires_at ... DEFAULT NOW() + INTERVAL '7 days'`, with
timestamps counted in seconds. -/
def sevenDays : Nat := 7 * 24 * 60 * 60

/-- Modelled from the spec: `discover` "converts distance to a bounded score in
[0,1] via a monotonic decreasing transform (closer distance → higher score)";
the transform itself is unspecified, so we take score = 1 - distance clamped
into [0,1]. -/
def scoreOf (dist : ℚ) : ℚ := max 0 (min 1 (1 - dist))

/-- Modelled from the spec: a candidate returned by the Similarity Index for a
discovery sweep, with the attributes `discover`'s filters inspect. -/
structure Candidate where
  userId : Nat
  agentId : Nat
  distance : ℚ
  privacyExcluded : Bool
  deactivated : Bool
deriving DecidableEq, Repr

/-- Modelled from the spec: the `pending` Match that `discover` creates for a
surviving candidate, with the schema's column defaults (`status 'pending'`,
`expires_at NOW() + INTERVAL '7 days'`) and canonical user slot order. -/
def mkMatch (newId now userA myAgent : Nat) (c : Candidate) (score : ℚ) : MatchRow :=
  { id := newId
    user1_id := pairLo userA c.userId
    user2_id := pairHi userA c.userId
    agent1_id := if userA ≤ c.userId then myAgent else c.agentId
    agent2_id := if userA ≤ c.userId then c.agentId else myAgent
    match_reason := none
    similarity_score := score
    status := MatchStatus.pending
    user1_response := none
    user2_response := none
    expires_at := now + sevenDays
    created_at := now
    responded_at := none }

/-- Modelled from the spec: the handling of one candidate inside
`discover(userId)` — filters out self, users with an existing non-expired
Match, privacy-excluded users and deactivated users, discards candidates whose
score is below the minimum threshold, and creates a `pending` Match if and
only if no existing Match for the unordered pair exists.  The score threshold
is a policy constant and is passed as a parameter. -/
def discoverCandidate (threshold : ℚ) (newId now userA myAgent : Nat)
    (c : Candidate) (st : List MatchRow) : List MatchRow :=
  if c.userId = userA then st
  else if hasLiveMatchForPair userA c.userId st then st
  else if c.privacyExcluded then st
  else if c.deactivated then st
  else if scoreOf c.distance < threshold then st
  else if hasMatchForPair userA c.userId st then st
  else st ++ [mkMatch newId now userA myAgent c (scoreOf c.distance)]

/-- Validation errors of `respond`, from the spec's error taxonomy. -/
inductive RespondError where
  | MatchNotFound
  | NotParticipant
  | AlreadyResponded
  | MatchNotPending
deriving DecidableEq, Repr

/-- The response already recorded for `userId`'s side of the match. -/
def sideResponse (m : MatchRow) (userId : Nat) : Option Response :=
  if userId = m.user1_id then m.user1_response else m.user2_response

/-- The response recorded for the side opposite to `userId`. -/
def otherResponse (m : MatchRow) (userId : Nat) : Option Response :=
  if userId = m.user1_id then m.user2_response else m.user1_response

/-- Modelled from the spec: the transition rule of `respond` — record the
decision on the caller's side; a reject makes the Match `rejected` immediately,
an accept makes it `accepted` when the other side has already accepted and
leaves it `pending` otherwise. -/
def applyResponse (m : MatchRow) (userId : Nat) (d : Response) (now : Nat) : MatchRow :=
  { m with
    user1_response := if userId = m.user1_id then some d else m.user1_response
    user2_response := if userId = m.user2_id then some d else m.user2_response
    status :=
      if d = Response.reject then MatchStatus.rejected
      else if otherResponse m userId = some Response.accept then MatchStatus.accepted
      else MatchStatus.pending
    responded_at := some now }

/-- Modelled from the spec: `respond(matchId, userId, decision)` over the whole
table — fails with `NotParticipant` when the caller is not one of the two
parties, `AlreadyResponded` when the caller's side already holds a response,
`MatchNotPending` when the Match has reached a terminal status; a validation
failure returns the table unchanged together with the error. -/
def respondToMatch (matchId userId : Nat) (d : Response) (now : Nat)
    (st : List MatchRow) : List MatchRow × Option RespondError :=
  match st.find? (fun m => m.id == matchId) with
  | none => (st, some RespondError.MatchNotFound)
  | some m =>
    if userId ≠ m.user1_id ∧ userId ≠ m.user2_id then
      (st, some RespondError.NotParticipant)
    else if (sideResponse m userId).isSome then
      (st, some RespondError.AlreadyResponded)
    else if m.status ≠ MatchStatus.pending then
      (st, some RespondError.MatchNotPending)
    else
      (st.map (fun x => if x.id == matchId then applyResponse m userId d now else x),
        none)

/-- Modelled from the spec: the background sweep that moves every `pending`
Match past its expiry timestamp to `expired`. -/
def expireSweep (now : Nat) (st : List MatchRow) : List MatchRow :=
  st.map fun m =>
    if m.status = MatchStatus.pending ∧ m.expires_at ≤ now then
      { m with status := MatchStatus.expired }
    else m

/-! ## Background jobs, from the `background_jobs` table and the spec's §4.3 -/

/-- Job status; the `status` column of `background_jobs`,
`CHECK (status IN ('pending', 'running', 'completed', 'failed', 'retrying'))`. -/
inductive JobStatus where
  | pending
  | running
  | completed
  | failed
  | retrying
deriving DecidableEq, Repr

/-- One row of the `background_jobs` table (the fields the retry policy
touches; `task_id` is modelled as a natural). -/
structure BackgroundJob where
  task_id : Nat
  status : JobStatus
  progress : Nat
  result : Option String
  error_message : Option String
  retry_count : Nat
  max_retries : Nat
deriving DecidableEq, Repr

/-- A freshly enqueued job, with the schema's column defaults
(`status 'pending'`, `progress 0`, `retry_count 0`, `max_retries 3`). -/
def newJob (tid : Nat) : BackgroundJob :=
  { task_id := tid
    status := JobStatus.pending
    progress := 0
    result := none
    error_message := none
    retry_count := 0
    max_retries := 3 }

/-- A job is eligible for a worker to claim iff it is `pending` or `retrying`. -/
def BackgroundJob.eligible (j : BackgroundJob) : Bool :=
  j.status == JobStatus.pending || j.status == JobStatus.retrying

/-- Modelled from the spec: the worker loop is absent from the reviewed
sources; one atomic execution attempt — a worker claims an eligible job
(`pending`/`retrying` → `running`) and runs the handler to its outcome: on
success the job becomes `completed` with the result recorded, on failure it
becomes `retrying` with `retry_count` incremented when
`retry_count < max_retries`, otherwise `failed` with the error recorded.  A
job that is not eligible is not executed and is left unchanged. -/
def runAttempt (j : BackgroundJob) (out : Except String String) : BackgroundJob :=
  if j.eligible then
    match out with
    | Except.ok res => { j with status := JobStatus.completed, result := some res, progress := 100 }
    | Except.error e =>
      if j.retry_count < j.max_retries then
        { j with status := JobStatus.retrying, retry_count := j.retry_count + 1 }
      else
        { j with status := JobStatus.failed, error_message := some e }
  else j

/-- `n` successive attempts of a handler that fails every time with error `e`. -/
def alwaysFailRun (e : String) : Nat → BackgroundJob → BackgroundJob
  | 0, j => j
  | n + 1, j => alwaysFailRun e n (runAttempt j (Except.error e))

/-! ## Conversations and messages, from the `conversations` / `messages`
tables and the spec's §4.2 -/

/-- Conversation status; the `status` column of `conversations`,
`CHECK (status IN ('active', 'ended', 'archived'))`. -/
inductive ConvStatus where
  | active
  | ended
  | archived
deriving DecidableEq, Repr

/-- A conversation, reduced to the fields `appendTurn` inspects. -/
structure Conversation where
  id : Nat
  status : ConvStatus
deriving DecidableEq, Repr

/-- One row of the `messages` table (the fields the claims concern).  The
`seq` field is the agent-assigned monotonic sequence number of the spec's
data model; the schema's `messages` table itself carries no sequence column,
so `seq` is modelled from the spec. -/
structure Message where
  id : Nat
  conversation_id : Nat
  seq : Nat
  content : String
  is_edited : Bool
deriving DecidableEq, Repr

/-- Validation error of `appendTurn`, from the spec's error taxonomy. -/
inductive ConvError where
  | ConversationNotActive
deriving DecidableEq, Repr

/-- The messages of one conversation, in table order. -/
def msgsOf (c : Nat) (st : List Message) : List Message :=
  st.filter fun m => m.conversation_id == c

/-- The current maximum sequence number in a conversation (0 when empty). -/
def maxSeq (c : Nat) (st : List Message) : Nat :=
  ((msgsOf c st).map Message.seq).foldr max 0

/-- Modelled from the spec: `appendTurn(conversationId, message)` — appends a
Message with a sequence number one greater than the current maximum for that
conversation, failing with `ConversationNotActive` when the conversation is
not `active`; the sequence-number assignment is serialized per conversation,
so one call is one atomic step. -/
def appendTurn (conv : Conversation) (msgId : Nat) (content : String)
    (st : List Message) : List Message × Option ConvError :=
  if conv.status = ConvStatus.active then
    (st ++ [{ id := msgId
              conversation_id := conv.id
              seq := maxSeq conv.id st + 1
              content := content
              is_edited := false }], none)
  else (st, some ConvError.ConversationNotActive)

/-- A serialized trace of `appendTurn` calls (any interleaving across
conversations), applied left to right to the message table. -/
def runAppends : List (Conversation × Nat × String) → List Message → List Message
  | [], st => st
  | (conv, msgId, content) :: ops, st =>
    runAppends ops (appendTurn conv msgId content st).1

/-- Modelled from the spec: an edit of a stored Message — "a new message plus
an edited-flag on the original, never in-place content mutation".  When the
original exists, its `is_edited` flag is set and a fresh Message holding the
new content is appended to the same conversation; otherwise nothing changes. -/
def editMessage (origId newId : Nat) (newContent : String)
    (st : List Message) : List Message :=
  match st.find? (fun m => m.id == origId) with
  | none => st
  | some orig =>
    (st.map fun m => if m.id == origId then { m with is_edited := true } else m)
      ++ [{ id := newId
            conversation_id := orig.conversation_id
            seq := maxSeq orig.conversation_id st + 1
            content := newContent
            is_edited := false }]

/-- The append-only view of the message table: each message's identity and
content, in table order. -/
def contentView (st : List Message) : List (Nat × String) :=
  st.map fun m => (m.id, m.content)

/-! ## The `ChatWebSocket` client class, from the frontend integration guide -/

/-- WebSocket `readyState` values of the browser API `ChatWebSocket` uses. -/
inductive ReadyState where
  | CONNECTING
  | OPEN
  | CLOSING
  | CLOSED
deriving DecidableEq, Repr

/-- The underlying browser socket, reduced to the field the class reads. -/
structure WebSocketRef where
  readyState : ReadyState
deriving DecidableEq, Repr

/-- The `ChatWebSocket` class state: `userId`, `token`, the optional socket
`ws`, `reconnectAttempts` and `maxReconnectAttempts`. -/
structure ChatWebSocket where
  userId : String
  token : String
  ws : Option WebSocketRef
  reconnectAttempts : Nat
  maxReconnectAttempts : Nat
deriving DecidableEq, Repr

/-- `constructor(userId, token)`: `ws = null`, `reconnectAttempts = 0`,
`maxReconnectAttempts = 5`. -/
def ChatWebSocket.create (userId token : String) : ChatWebSocket :=
  { userId := userId
    token := token
    ws := none
    reconnectAttempts := 0
    maxReconnectAttempts := 5 }

/-- The `onopen` handler installed by `connect()`: resets
`reconnectAttempts` to 0. -/
def ChatWebSocket.onOpen (c : ChatWebSocket) : ChatWebSocket :=
  { c with reconnectAttempts := 0 }

/-- `handleReconnect()`: when `reconnectAttempts < maxReconnectAttempts`, the
counter is incremented and `connect()` is scheduled after
`1000 * this.reconnectAttempts` milliseconds (the counter is read after the
increment); otherwise nothing is scheduled.  Returns the new state and the
scheduled delay, if any. -/
def ChatWebSocket.handleReconnect (c : ChatWebSocket) : ChatWebSocket × Option Nat :=
  if c.reconnectAttempts < c.maxReconnectAttempts then
    let c' := { c with reconnectAttempts := c.reconnectAttempts + 1 }
    (c', some (1000 * c'.reconnectAttempts))
  else (c, none)

/-- `sendMessage(message)`: transmits only when `this.ws` exists and its
`readyState` is `WebSocket.OPEN`; returns the transmitted payload, if any. -/
def ChatWebSocket.sendMessage (c : ChatWebSocket) (msg : String) : Option String :=
  match c.ws with
  | some w => if w.readyState = ReadyState.OPEN then some msg else none
  | none => none

/-- The state after `n` consecutive failed reconnect rounds (each round is one
`onclose` → `handleReconnect` step). -/
def reconnectIter (c : ChatWebSocket) : Nat → ChatWebSocket
  | 0 => c
  | n + 1 => (ChatWebSocket.handleReconnect (reconnectIter c n)).1

/-! ## Derived predicates and concrete sample data -/

/-- Every Match row's similarity score lies in the closed interval [0,1]. -/
def scoresInRange (st : List MatchRow) : Prop :=
  ∀ m ∈ st, 0 ≤ m.similarity_score ∧ m.similarity_score ≤ 1

instance (st : List MatchRow) : Decidable (scoresInRange st) := by
  unfold scoresInRange
  infer_instance

/-- Within every conversation, the stored sequence numbers in table order are
exactly 1, 2, …, n: strictly increasing, gap-free and duplicate-free. -/
def seqInv (st : List Message) : Prop :=
  ∀ c, (msgsOf c st).map Message.seq = List.range' 1 (msgsOf c st).length

/-- A concrete Match row used to exercise the theorems on closed inputs. -/
def sampleRow (mid a b : Nat) (sc : ℚ) (s : MatchStatus)
    (r1 r2 : Option Response) : MatchRow :=
  { id := mid
    user1_id := a
    user2_id := b
    agent1_id := 10 + a
    agent2_id := 10 + b
    match_reason := none
    similarity_score := sc
    status := s
    user1_response := r1
    user2_response := r2
    expires_at := 1000
    created_at := 0
    responded_at := none }

/-- A concrete candidate used to exercise the theorems on closed inputs. -/
def sampleCand : Candidate :=
  { userId := 2, agentId := 12, distance := 0, privacyExcluded := false, deactivated := false }

/-- A concrete message used to exercise the theorems on closed inputs. -/
def sampleMsg : Message :=
  { id := 1, conversation_id := 1, seq := 1, content := "v1", is_edited := false }

/-! ## Claim C9: the ordering CHECK makes ordered uniqueness unordered -/

/-- **C9.** Every row of the `matches` table satisfying the schema's
`CHECK (user1_id < user2_id)` has two distinct participants, and together with
the ordered `UNIQUE(user1_id, user2_id)` constraint this yields unordered-pair
uniqueness: no two distinct rows pair the same two users. -/
theorem matches_check_unordered_uniqueness (st : List MatchRow)
    (hchk : allChecked st) (huniq : orderedUnique st) :
    (∀ m ∈ st, m.user1_id ≠ m.user2_id) ∧ pairUnique st := by
  constructor
  · intro m hm
    exact Nat.ne_of_lt (hchk m hm)
  · refine List.Pairwise.imp_of_mem ?_ huniq
    intro a b ha hb hne hsp
    have ha' : a.user1_id < a.user2_id := hchk a ha
    have hb' : b.user1_id < b.user2_id := hchk b hb
    rcases hsp with ⟨h1, h2⟩ | ⟨h1, h2⟩
    · exact hne (by rw [h1, h2])
    · omega

/-- Witness for C9 at a concrete two-row table. -/
theorem matches_check_unordered_uniqueness_witness :
    (∀ m ∈ [sampleRow 1 1 2 1 MatchStatus.pending none none,
            sampleRow 2 1 3 1 MatchStatus.pending none none],
        m.user1_id ≠ m.user2_id) ∧
    pairUnique [sampleRow 1 1 2 1 MatchStatus.pending none none,
                sampleRow 2 1 3 1 MatchStatus.pending none none] :=
  matches_check_unordered_uniqueness _ (by decide) (by decide)

/-! ## Claim C10: bounded client reconnection -/

/-- After `n` failed reconnect rounds from a fresh counter, the attempt
counter reads `min n 5` and the maximum is untouched. -/
theorem reconnectIter_attempts (c : ChatWebSocket)
    (h0 : c.reconnectAttempts = 0) (h5 : c.maxReconnectAttempts = 5) (n : Nat) :
    (reconnectIter c n).reconnectAttempts = min n 5 ∧
    (reconnectIter c n).maxReconnectAttempts = 5 := by
  induction n with
  | zero => simp [reconnectIter, h0, h5]
  | succ n ih =>
    obtain ⟨ih1, ih2⟩ := ih
    simp only [reconnectIter, ChatWebSocket.handleReconnect]
    split
    · constructor
      · simp only [ih1] at *
        omega
      · exact ih2
    · rename_i hlt
      rw [ih1, ih2] at hlt
      constructor
      · rw [ih1]; omega
      · exact ih2

/-- **C10.** For a `ChatWebSocket` whose reconnect counter is fresh (as the
constructor and the `onopen` handler leave it), `handleReconnect` schedules the
k-th reconnect attempt, 1 ≤ k ≤ 5, with delay `k * 1000` milliseconds; from the
5th failed round on it schedules nothing further; `onopen` resets the counter;
and `sendMessage` transmits exactly when the socket exists with `readyState`
`OPEN`. -/
theorem websocket_reconnect_bounded (u t : String) :
    (∀ k, 1 ≤ k → k ≤ 5 →
      (ChatWebSocket.handleReconnect (reconnectIter (ChatWebSocket.create u t) (k - 1))).2
        = some (1000 * k)) ∧
    (∀ n, 5 ≤ n →
      (ChatWebSocket.handleReconnect (reconnectIter (ChatWebSocket.create u t) n)).2 = none) ∧
    (∀ c : ChatWebSocket, c.onOpen.reconnectAttempts = 0) ∧
    (∀ (c : ChatWebSocket) (msg : String),
      (c.sendMessage msg).isSome ↔ ∃ w, c.ws = some w ∧ w.readyState = ReadyState.OPEN) := by
  have hbase : (ChatWebSocket.create u t).reconnectAttempts = 0 := rfl
  have hmax : (ChatWebSocket.create u t).maxReconnectAttempts = 5 := rfl
  refine ⟨?_, ?_, ?_, ?_⟩
  · intro k hk1 hk5
    obtain ⟨h1, h2⟩ := reconnectIter_attempts (ChatWebSocket.create u t) hbase hmax (k - 1)
    simp only [ChatWebSocket.handleReconnect, h1, h2]
    have hmin : min (k - 1) 5 = k - 1 := by omega
    rw [hmin]
    rw [if_pos (by omega)]
    have : k - 1 + 1 = k := by omega
    rw [this]
  · intro n hn
    obtain ⟨h1, h2⟩ := reconnectIter_attempts (ChatWebSocket.create u t) hbase hmax n
    simp only [ChatWebSocket.handleReconnect, h1, h2]
    rw [if_neg (by omega)]
  · intro c
    rfl
  · intro c msg
    cases hws : c.ws with
    | none => simp [ChatWebSocket.sendMessage, hws]
    | some w =>
      by_cases hrs : w.readyState = ReadyState.OPEN
      · simp [ChatWebSocket.sendMessage, hws, hrs]
      · simp [ChatWebSocket.sendMessage, hws, hrs]

/-- Witness for C10: the 3rd attempt is delayed 3000 ms, the 8th round
schedules nothing, and `sendMessage` on an `OPEN` socket transmits. -/
theorem websocket_reconnect_bounded_witness :
    (ChatWebSocket.handleReconnect (reconnectIter (ChatWebSocket.create "u" "t") 2)).2
      = some 3000 ∧
    (ChatWebSocket.handleReconnect (reconnectIter (ChatWebSocket.create "u" "t") 8)).2
      = none ∧
    (({ ChatWebSocket.create "u" "t" with
        ws := some { readyState := ReadyState.OPEN } }).sendMessage "hello").isSome := by
  have h := websocket_reconnect_bounded "u" "t"
  refine ⟨?_, h.2.1 8 (by omega), ?_⟩
  · have h3 := h.1 3 (by omega) (by omega)
    norm_num at h3
    exact h3
  · exact (h.2.2.2 _ "hello").mpr ⟨_, rfl, rfl⟩

/-! ## Claim C3: the retry policy exhausts into a terminal `failed` -/

/-- **C3.** A job enqueued with the schema defaults (`max_retries = 3`) whose
handler fails on every attempt ends `failed` with `retry_count = 3` and the
error recorded; a `failed` job is never executed again; and in general a
handler failure moves an eligible job to `retrying` (incrementing
`retry_count`) exactly when `retry_count < max_retries`, and otherwise to
`failed` with the error recorded. -/
theorem job_retry_exhaustion (tid : Nat) (e : String) :
    ((alwaysFailRun e 4 (newJob tid)).status = JobStatus.failed ∧
     (alwaysFailRun e 4 (newJob tid)).retry_count = 3 ∧
     (alwaysFailRun e 4 (newJob tid)).error_message = some e) ∧
    (∀ (j : BackgroundJob) (out : Except String String),
      j.status = JobStatus.failed → runAttempt j out = j) ∧
    (∀ (j : BackgroundJob) (msg : String), j.eligible = true →
      (j.retry_count < j.max_retries →
        (runAttempt j (Except.error msg)).status = JobStatus.retrying ∧
        (runAttempt j (Except.error msg)).retry_count = j.retry_count + 1) ∧
      (¬ j.retry_count < j.max_retries →
        (runAttempt j (Except.error msg)).status = JobStatus.failed ∧
        (runAttempt j (Except.error msg)).error_message = some msg)) := by
  refine ⟨?_, ?_, ?_⟩
  · simp [alwaysFailRun, runAttempt, newJob, BackgroundJob.eligible]
  · intro j out hfail
    have : j.eligible = false := by
      simp [BackgroundJob.eligible, hfail]
    simp [runAttempt, this]
  · intro j msg helig
    constructor
    · intro hlt
      simp [runAttempt, helig, hlt]
    · intro hge
      simp [runAttempt, helig, hge]

/-- Witness for C3: a concrete job that always fails ends `failed` with
`retry_count = 3`, and running it again changes nothing. -/
theorem job_retry_exhaustion_witness :
    (alwaysFailRun "boom" 4 (newJob 1)).status = JobStatus.failed ∧
    (alwaysFailRun "boom" 4 (newJob 1)).retry_count = 3 ∧
    runAttempt (alwaysFailRun "boom" 4 (newJob 1)) (Except.ok "late") =
      alwaysFailRun "boom" 4 (newJob 1) := by
  have h := job_retry_exhaustion 1 "boom"
  exact ⟨h.1.1, h.1.2.1, h.2.1 _ _ h.1.1⟩

/-! ## Claim C2: the match response transition rule -/

/-- **C2.** When a participant of a `pending` Match whose side holds no
response records a decision: the resulting status is `accepted` iff both
recorded responses are `accept`; it is `rejected` iff the decision is
`reject` (regardless of the other side's state); and an `accept` while the
other side has not responded leaves the Match `pending`. -/
theorem respond_status_transition (m : MatchRow) (userId : Nat) (d : Response) (now : Nat)
    (hpart : userId = m.user1_id ∨ userId = m.user2_id)
    (hdistinct : m.user1_id ≠ m.user2_id)
    (_hside : sideResponse m userId = none)
    (_hpend : m.status = MatchStatus.pending) :
    ((applyResponse m userId d now).status = MatchStatus.accepted ↔
      ((applyResponse m userId d now).user1_response = some Response.accept ∧
       (applyResponse m userId d now).user2_response = some Response.accept)) ∧
    ((applyResponse m userId d now).status = MatchStatus.rejected ↔ d = Response.reject) ∧
    (d = Response.accept → otherResponse m userId = none →
      (applyResponse m userId d now).status = MatchStatus.pending) := by
  rcases hpart with h | h
  · have h2 : ¬ userId = m.user2_id := by omega
    cases d
    · simp only [applyResponse, otherResponse, if_pos h, if_neg h2]
      cases hr : m.user2_response with
      | none => simp [hr]
      | some r => cases r <;> simp [hr]
    · simp [applyResponse, otherResponse, if_pos h, if_neg h2]
  · have h2 : ¬ userId = m.user1_id := by omega
    cases d
    · simp only [applyResponse, otherResponse, if_pos h, if_neg h2]
      cases hr : m.user1_response with
      | none => simp [hr]
      | some r => cases r <;> simp [hr]
    · simp [applyResponse, otherResponse, if_pos h, if_neg h2]

/-- Witness for C2: on a concrete pending Match where user 1 has accepted,
user 2's accept makes the status `accepted`. -/
theorem respond_status_transition_witness :
    (applyResponse (sampleRow 1 1 2 1 MatchStatus.pending (some Response.accept) none)
        2 Response.accept 5).status = MatchStatus.accepted :=
  ((respond_status_transition
      (sampleRow 1 1 2 1 MatchStatus.pending (some Response.accept) none)
      2 Response.accept 5 (by decide) (by decide) (by decide) (by decide)).1).mpr
    (by decide)

/-! ## Claim C5: respond validation failures and their purity -/

/-- **C5.** `respond(matchId, userId, decision)` fails with `NotParticipant`
when the caller is neither party of the found Match, with `AlreadyResponded`
when the caller's side already holds a response, with `MatchNotPending` when
the Match is in a terminal (non-`pending`) status; and every failure leaves the
stored table unchanged. -/
theorem respond_validation_errors_pure (matchId userId : Nat) (d : Response) (now : Nat)
    (st : List MatchRow) :
    (∀ e, (respondToMatch matchId userId d now st).2 = some e →
      (respondToMatch matchId userId d now st).1 = st) ∧
    (∀ m, st.find? (fun x => x.id == matchId) = some m →
      ((userId ≠ m.user1_id ∧ userId ≠ m.user2_id →
        respondToMatch matchId userId d now st = (st, some RespondError.NotParticipant)) ∧
      ((userId = m.user1_id ∨ userId = m.user2_id) → (sideResponse m userId).isSome →
        respondToMatch matchId userId d now st = (st, some RespondError.AlreadyResponded)) ∧
      ((userId = m.user1_id ∨ userId = m.user2_id) → sideResponse m userId = none →
        m.status ≠ MatchStatus.pending →
        respondToMatch matchId userId d now st
          = (st, some RespondError.MatchNotPending)))) := by
  constructor
  · intro e he
    unfold respondToMatch at he ⊢
    cases hf : st.find? (fun x => x.id == matchId) with
    | none => simp [hf]
    | some m =>
      simp only [hf] at he ⊢
      split_ifs at he ⊢ <;> simp_all
  · intro m hf
    have hnp : ∀ (h : userId ≠ m.user1_id ∧ userId ≠ m.user2_id),
        respondToMatch matchId userId d now st = (st, some RespondError.NotParticipant) := by
      intro h
      unfold respondToMatch
      simp only [hf]
      rw [if_pos h]
    refine ⟨hnp, ?_, ?_⟩
    · intro hp hsome
      have hc : ¬ (userId ≠ m.user1_id ∧ userId ≠ m.user2_id) := by tauto
      unfold respondToMatch
      simp only [hf]
      rw [if_neg hc, if_pos hsome]
    · intro hp hnone hstat
      have hc : ¬ (userId ≠ m.user1_id ∧ userId ≠ m.user2_id) := by tauto
      have hc2 : ¬ (sideResponse m userId).isSome := by simp [hnone]
      unfold respondToMatch
      simp only [hf]
      rw [if_neg hc, if_neg hc2, if_pos hstat]

/-- Witness for C5: a non-participant's response on a concrete table fails
with `NotParticipant` and leaves the table unchanged. -/
theorem respond_validation_errors_pure_witness :
    respondToMatch 1 99 Response.accept 5 [sampleRow 1 1 2 1 MatchStatus.pending none none]
      = ([sampleRow 1 1 2 1 MatchStatus.pending none none],
          some RespondError.NotParticipant) :=
  ((respond_validation_errors_pure 1 99 Response.accept 5
      [sampleRow 1 1 2 1 MatchStatus.pending none none]).2
    (sampleRow 1 1 2 1 MatchStatus.pending none none) rfl).1 (by decide)

/-! ## Claim C6: discovery creates pending Matches with the 7-day expiry -/

/-- A non-expired Match for a pair is in particular a Match for that pair. -/
theorem hasLive_imp_hasMatch (a b : Nat) (st : List MatchRow)
    (h : hasLiveMatchForPair a b st = true) : hasMatchForPair a b st = true := by
  simp only [hasLiveMatchForPair, List.any_eq_true, Bool.and_eq_true] at h
  obtain ⟨m, hm, ⟨h1, h2⟩, _⟩ := h
  simp only [hasMatchForPair, List.any_eq_true, Bool.and_eq_true]
  exact ⟨m, hm, h1, h2⟩

/-- **C6.** For a surviving candidate (not self, not privacy-excluded, not
deactivated, score at or above the threshold), `discover` creates a Match in
status `pending` whose expiry is the fixed 7-day window after creation, if and
only if no existing Match for the unordered pair exists. -/
theorem discover_creates_pending_with_expiry (threshold : ℚ) (newId now userA myAgent : Nat)
    (c : Candidate) (st : List MatchRow)
    (hself : c.userId ≠ userA)
    (hpriv : c.privacyExcluded = false)
    (hdeact : c.deactivated = false)
    (hthr : ¬ scoreOf c.distance < threshold) :
    (hasMatchForPair userA c.userId st = false →
      discoverCandidate threshold newId now userA myAgent c st
        = st ++ [mkMatch newId now userA myAgent c (scoreOf c.distance)] ∧
      (mkMatch newId now userA myAgent c (scoreOf c.distance)).status = MatchStatus.pending ∧
      (mkMatch newId now userA myAgent c (scoreOf c.distance)).expires_at = now + sevenDays ∧
      (mkMatch newId now userA myAgent c (scoreOf c.distance)).created_at = now) ∧
    (hasMatchForPair userA c.userId st = true →
      discoverCandidate threshold newId now userA myAgent c st = st) := by
  constructor
  · intro hno
    have hlive : hasLiveMatchForPair userA c.userId st = false := by
      cases hl : hasLiveMatchForPair userA c.userId st
      · rfl
      · rw [hasLive_imp_hasMatch _ _ _ hl] at hno
        cases hno
    refine ⟨?_, rfl, rfl, rfl⟩
    unfold discoverCandidate
    split_ifs <;> simp_all
  · intro hyes
    unfold discoverCandidate
    split_ifs <;> simp_all

/-- Witness for C6: on the empty table, a concrete surviving candidate yields
exactly one new pending Match with the 7-day expiry. -/
theorem discover_creates_pending_with_expiry_witness :
    discoverCandidate (1/2 : ℚ) 7 100 1 11 sampleCand []
      = [mkMatch 7 100 1 11 sampleCand (scoreOf sampleCand.distance)] ∧
    (mkMatch 7 100 1 11 sampleCand (scoreOf sampleCand.distance)).status
      = MatchStatus.pending ∧
    (mkMatch 7 100 1 11 sampleCand (scoreOf sampleCand.distance)).expires_at
      = 100 + sevenDays := by
  have h := (discover_creates_pending_with_expiry (1/2 : ℚ) 7 100 1 11 sampleCand []
    (by decide) rfl rfl (by norm_num [scoreOf, sampleCand])).1 rfl
  exact ⟨h.1, h.2.1, h.2.2.1⟩

/-! ## Claim C7: similarity scores stay in [0,1] -/

/-- **C7.** The score transform lands in [0,1], and the bounded-score
invariant over the Match table is preserved by discovery, by responding and
by the expiry sweep. -/
theorem similarity_score_bounded (threshold : ℚ) (newId now userA myAgent : Nat)
    (c : Candidate) (matchId userId : Nat) (d : Response) (rnow snow : Nat)
    (st : List MatchRow) (h : scoresInRange st) :
    (0 ≤ scoreOf c.distance ∧ scoreOf c.distance ≤ 1) ∧
    scoresInRange (discoverCandidate threshold newId now userA myAgent c st) ∧
    scoresInRange ((respondToMatch matchId userId d rnow st).1) ∧
    scoresInRange (expireSweep snow st) := by
  have hscore : ∀ q : ℚ, 0 ≤ scoreOf q ∧ scoreOf q ≤ 1 := by
    intro q
    refine ⟨le_max_left 0 _, max_le (by norm_num) (min_le_left 1 _)⟩
  refine ⟨hscore c.distance, ?_, ?_, ?_⟩
  · unfold discoverCandidate
    split_ifs <;> try exact h
    intro m hm
    rcases List.mem_append.mp hm with hmem | hmem
    · exact h m hmem
    · rw [List.mem_singleton.mp hmem]
      exact hscore c.distance
  · unfold respondToMatch
    cases hf : st.find? (fun x => x.id == matchId) with
    | none => exact h
    | some m0 =>
      have hm0 : m0 ∈ st := List.mem_of_find?_eq_some hf
      dsimp only
      split_ifs <;> try exact h
      intro m hm
      rcases List.mem_map.mp hm with ⟨x, hx, hxm⟩
      by_cases hid : (x.id == matchId) = true
      · rw [if_pos hid] at hxm
        rw [← hxm]
        exact h m0 hm0
      · rw [if_neg hid] at hxm
        rw [← hxm]
        exact h x hx
  · intro m hm
    rcases List.mem_map.mp hm with ⟨x, hx, hxm⟩
    by_cases hcond : x.status = MatchStatus.pending ∧ x.expires_at ≤ snow
    · rw [if_pos hcond] at hxm
      rw [← hxm]
      exact h x hx
    · rw [if_neg hcond] at hxm
      rw [← hxm]
      exact h x hx

/-- Witness for C7: the concrete score transform at distance 0 is within
bounds, starting from a concrete one-row table. -/
theorem similarity_score_bounded_witness :
    0 ≤ scoreOf sampleCand.distance ∧ scoreOf sampleCand.distance ≤ 1 :=
  (similarity_score_bounded 1 7 100 1 11 sampleCand 1 1 Response.accept 5 5
    [sampleRow 1 1 2 1 MatchStatus.pending none none] (by decide)).1

/-! ## Claim C1: unordered-pair uniqueness under discovery -/

/-- Pair uniqueness over all rows restricts to the non-expired rows. -/
theorem pairUnique_imp_nonExpired (st : List MatchRow) (h : pairUnique st) :
    nonExpiredPairUnique st :=
  List.Pairwise.imp (fun hab _ _ => hab) h

/-- **C1.** Discovery preserves the schema CHECK and unordered-pair
uniqueness (hence at most one non-expired Match per unordered pair); it
creates nothing when a Match for the pair already exists; and whenever it does
create, the pair is recorded as matched, so a repeated or interleaved
discovery sweep for the same pair can never create a second Match. -/
theorem discover_pair_unique_invariant (threshold : ℚ) (newId now userA myAgent : Nat)
    (c : Candidate) (st : List MatchRow)
    (hchk : allChecked st) (hinv : pairUnique st) :
    allChecked (discoverCandidate threshold newId now userA myAgent c st) ∧
    pairUnique (discoverCandidate threshold newId now userA myAgent c st) ∧
    nonExpiredPairUnique (discoverCandidate threshold newId now userA myAgent c st) ∧
    (hasMatchForPair userA c.userId st = true →
      discoverCandidate threshold newId now userA myAgent c st = st) ∧
    (discoverCandidate threshold newId now userA myAgent c st ≠ st →
      hasMatchForPair userA c.userId
        (discoverCandidate threshold newId now userA myAgent c st) = true) := by
  unfold discoverCandidate
  split_ifs with h1 h2 h3 h4 h5 h6
  case pos =>
    exact ⟨hchk, hinv, pairUnique_imp_nonExpired st hinv, fun _ => rfl,
      fun hne => absurd rfl hne⟩
  case pos =>
    exact ⟨hchk, hinv, pairUnique_imp_nonExpired st hinv, fun _ => rfl,
      fun hne => absurd rfl hne⟩
  case pos =>
    exact ⟨hchk, hinv, pairUnique_imp_nonExpired st hinv, fun _ => rfl,
      fun hne => absurd rfl hne⟩
  case pos =>
    exact ⟨hchk, hinv, pairUnique_imp_nonExpired st hinv, fun _ => rfl,
      fun hne => absurd rfl hne⟩
  case pos =>
    exact ⟨hchk, hinv, pairUnique_imp_nonExpired st hinv, fun _ => rfl,
      fun hne => absurd rfl hne⟩
  case pos =>
    exact ⟨hchk, hinv, pairUnique_imp_nonExpired st hinv, fun _ => rfl,
      fun hne => absurd rfl hne⟩
  case neg =>
    have hne : userA ≠ c.userId := fun hh => h1 hh.symm
    have hchk' : allChecked
        (st ++ [mkMatch newId now userA myAgent c (scoreOf c.distance)]) := by
      intro m hm
      rcases List.mem_append.mp hm with hmem | hmem
      · exact hchk m hmem
      · rw [List.mem_singleton.mp hmem]
        simp only [MatchRow.check, mkMatch, pairLo, pairHi]
        omega
    have hcross : ∀ a ∈ st,
        ¬ samePair a (mkMatch newId now userA myAgent c (scoreOf c.distance)) := by
      intro a ha hsp
      rcases hsp with ⟨e1, e2⟩ | ⟨e1, e2⟩
      · apply h6
        simp only [hasMatchForPair, List.any_eq_true, Bool.and_eq_true, beq_iff_eq]
        refine ⟨a, ha, ?_, ?_⟩
        · rw [e1]; rfl
        · rw [e2]; rfl
      · have hac : a.user1_id < a.user2_id := hchk a ha
        have e1' : a.user1_id = pairHi userA c.userId := by
          rw [e1]; rfl
        have e2' : a.user2_id = pairLo userA c.userId := by
          rw [e2]; rfl
        simp only [pairLo, pairHi] at e1' e2'
        omega
    have hpu : pairUnique
        (st ++ [mkMatch newId now userA myAgent c (scoreOf c.distance)]) := by
      rw [pairUnique, List.pairwise_append]
      refine ⟨hinv, List.pairwise_singleton _ _, ?_⟩
      intro a ha b hb
      rw [List.mem_singleton.mp hb]
      exact hcross a ha
    refine ⟨hchk', hpu, pairUnique_imp_nonExpired _ hpu, fun hyes => absurd hyes h6, ?_⟩
    intro _
    simp only [hasMatchForPair, List.any_append, List.any_cons, List.any_nil,
      Bool.or_false, mkMatch, beq_self_eq_true, Bool.and_true, Bool.or_eq_true]
    right
    simp

/-- Witness for C1: discovery on the empty table keeps the pair-uniqueness
invariant and marks the created pair as matched. -/
theorem discover_pair_unique_invariant_witness :
    pairUnique (discoverCandidate (1/2 : ℚ) 7 100 1 11 sampleCand []) ∧
    (discoverCandidate (1/2 : ℚ) 7 100 1 11 sampleCand [] ≠ [] →
      hasMatchForPair 1 sampleCand.userId
        (discoverCandidate (1/2 : ℚ) 7 100 1 11 sampleCand []) = true) := by
  have h := discover_pair_unique_invariant (1/2 : ℚ) 7 100 1 11 sampleCand []
    (by decide) (by decide)
  exact ⟨h.2.1, h.2.2.2.2⟩

/-! ## Claim C4: per-conversation sequence numbers are gap-free and strict -/

/-- `foldr max 0` over the contiguous block `s, …, s+n-1` reads its top. -/
theorem foldr_max_range' (n s : Nat) :
    (List.range' s n).foldr max 0 = if n = 0 then 0 else s + n - 1 := by
  induction n generalizing s with
  | zero => simp
  | succ n ih =>
    rw [List.range'_succ]
    simp only [List.foldr_cons]
    rw [ih (s + 1)]
    by_cases hn : n = 0
    · simp [hn]
    · rw [if_neg hn, if_neg (by omega)]
      omega

/-- Under the sequence invariant, the stored maximum sequence number of a
conversation is its message count. -/
theorem maxSeq_of_seqInv (c : Nat) (st : List Message) (h : seqInv st) :
    maxSeq c st = (msgsOf c st).length := by
  unfold maxSeq
  rw [h c, foldr_max_range']
  by_cases hn : (msgsOf c st).length = 0
  · simp [hn]
  · rw [if_neg hn]
    omega

/-- One `appendTurn` call preserves the sequence invariant. -/
theorem appendTurn_seqInv (conv : Conversation) (msgId : Nat) (content : String)
    (st : List Message) (h : seqInv st) :
    seqInv ((appendTurn conv msgId content st).1) := by
  unfold appendTurn
  by_cases hact : conv.status = ConvStatus.active
  · rw [if_pos hact]
    intro c
    simp only [msgsOf, List.filter_append]
    by_cases hc : conv.id = c
    · have hfil : List.filter (fun m : Message => m.conversation_id == c)
          [(⟨msgId, conv.id, maxSeq conv.id st + 1, content, false⟩ : Message)]
          = [(⟨msgId, conv.id, maxSeq conv.id st + 1, content, false⟩ : Message)] := by
        simp [hc]
      rw [hfil, List.map_append, List.length_append]
      have hseq := h c
      simp only [msgsOf] at hseq
      have hmc : maxSeq conv.id st
          = (List.filter (fun m : Message => m.conversation_id == c) st).length := by
        rw [hc]
        exact maxSeq_of_seqInv c st h
      rw [hseq]
      dsimp only [List.map_singleton, List.length_singleton]
      rw [hmc, List.range'_concat]
      congr 1
      congr 1
      omega
    · have hfil : List.filter (fun m : Message => m.conversation_id == c)
          [(⟨msgId, conv.id, maxSeq conv.id st + 1, content, false⟩ : Message)]
          = ([] : List Message) := by
        simp [hc]
      rw [hfil, List.append_nil]
      exact h c
  · rw [if_neg hact]
    exact h

/-- The sequence invariant holds after any serialized trace of `appendTurn`
calls starting from an invariant table. -/
theorem runAppends_seqInv (ops : List (Conversation × Nat × String))
    (st : List Message) (h : seqInv st) : seqInv (runAppends ops st) := by
  induction ops generalizing st with
  | nil => exact h
  | cons op ops ih =>
    obtain ⟨conv, msgId, content⟩ := op
    exact ih _ (appendTurn_seqInv conv msgId content st h)

/-- **C4.** After any serialized trace of `appendTurn` calls on the empty
table — any interleaving across conversations — the sequence numbers within
each single conversation are strictly increasing and are exactly 1, …, n:
no gaps and no duplicates; in particular no two turns share a number. -/
theorem message_sequence_strictly_increasing
    (ops : List (Conversation × Nat × String)) (c : Nat) :
    ((msgsOf c (runAppends ops [])).map Message.seq).Pairwise (· < ·) ∧
    (msgsOf c (runAppends ops [])).map Message.seq
      = List.range' 1 (msgsOf c (runAppends ops [])).length := by
  have h0 : seqInv ([] : List Message) := fun _ => rfl
  have h := runAppends_seqInv ops [] h0 c
  refine ⟨?_, h⟩
  rw [h]
  exact List.pairwise_lt_range' 1 _

/-! ## Claim C8: messages are immutable and the table append-only -/

/-- **C8.** Both message-table operations — appending a turn and editing a
message — extend the table's (id, content) view on the right, never mutating
a stored message's content in place; an edit keeps the original message
present with its identity and content intact (only its edited-flag is set). -/
theorem messages_append_only (st : List Message) :
    (∀ (conv : Conversation) (msgId : Nat) (content : String),
      ∃ tail, contentView ((appendTurn conv msgId content st).1)
        = contentView st ++ tail) ∧
    (∀ (origId newId : Nat) (newContent : String),
      ∃ tail, contentView (editMessage origId newId newContent st)
        = contentView st ++ tail) ∧
    (∀ (origId newId : Nat) (newContent : String), ∀ m ∈ st,
      ∃ m', m' ∈ editMessage origId newId newContent st ∧
        m'.id = m.id ∧ m'.content = m.content) := by
  refine ⟨?_, ?_, ?_⟩
  · intro conv msgId content
    unfold appendTurn
    by_cases hact : conv.status = ConvStatus.active
    · rw [if_pos hact]
      exact ⟨[(msgId, content)], by simp [contentView]⟩
    · rw [if_neg hact]
      exact ⟨[], by simp⟩
  · intro origId newId newContent
    unfold editMessage
    cases hf : st.find? (fun m => m.id == origId) with
    | none => exact ⟨[], by simp⟩
    | some orig =>
      refine ⟨[(newId, newContent)], ?_⟩
      simp only [contentView, List.map_append, List.map_map, List.map_singleton]
      congr 1
      apply List.map_congr_left
      intro m _
      by_cases hid : (m.id == origId) = true
      · simp [Function.comp, hid]
      · simp [Function.comp, hid]
  · intro origId newId newContent m hm
    unfold editMessage
    cases hf : st.find? (fun m => m.id == origId) with
    | none => exact ⟨m, hm, rfl, rfl⟩
    | some orig =>
      by_cases hid : (m.id == origId) = true
      · refine ⟨{ m with is_edited := true }, ?_, rfl, rfl⟩
        apply List.mem_append_left
        have hmem := List.mem_map_of_mem
          (fun x => if (x.id == origId) = true then { x with is_edited := true } else x) hm
        simpa [hid] using hmem
      · refine ⟨m, ?_, rfl, rfl⟩
        apply List.mem_append_left
        have hmem := List.mem_map_of_mem
          (fun x => if (x.id == origId) = true then { x with is_edited := true } else x) hm
        simpa [hid] using hmem

/-- Witness for C8: after editing the only message of a concrete table, the
original's identity and content are still present unchanged. -/
theorem messages_append_only_witness :
    ∃ m', m' ∈ editMessage 1 2 "v2" [sampleMsg] ∧
      m'.id = sampleMsg.id ∧ m'.content = sampleMsg.content :=
  (messages_append_only [sampleMsg]).2.2 1 2 "v2" sampleMsg (by simp)

end Clonevault
